import Mathlib

/-!
Shallow embedding of the token-bucket rate-limiter simulation (`src/main.py`).

The source has two classes:

* `RequestTokenBucket` — fields `maxTokens`, `refillRate`, `lastRequestTimestamp`
  (a `None`-able timestamp) and `currentCount`, with methods
  `calculateCurrentTokens` (lazy refill) and `printBucketSummary` (diagnostic
  printing).  Python integers are unbounded, so all counts and timestamps are
  embedded as `Int`; Python's floor division `//` is `Int.fdiv`.
* `TokenBucketRateLimiter` — a dict `ratelimiterDict` from account ids to
  buckets, with `addAccount` (insert-or-replace), `removeAccount`
  (`del`, raising `KeyError` when absent) and `allowRequestToService`
  (lookup — raising `KeyError` when absent — then refill-then-consume under
  the bucket's lock).

The source reads the wall clock (`int(round(time.time()))`) inside a call;
the embedding passes that reading as an explicit `now : Int` argument, one
per call (each call is a single critical section).  Mutation is embedded as
state passing and a raised `KeyError` as `Except PyError`.  The lock field is
not represented: every operation here is the whole critical section.
-/

set_option autoImplicit false

namespace TokenBucket

/-- A Python `KeyError` raised on a missing dict key. -/
inductive PyError where
  | keyError (key : Int)
  deriving DecidableEq, Repr

/-- State of `RequestTokenBucket` (`src/main.py:34-53`), minus the lock. -/
structure RequestTokenBucket where
  maxTokens : Int
  refillRate : Int
  lastRequestTimestamp : Option Int
  currentCount : Int
  deriving DecidableEq, Repr

namespace RequestTokenBucket

/-- `RequestTokenBucket.__init__` (`src/main.py:34-53`): stores both
parameters verbatim, no admission history, bucket starts full. -/
def init (maxTokens refillRate : Int) : RequestTokenBucket :=
  { maxTokens := maxTokens
    refillRate := refillRate
    lastRequestTimestamp := none
    currentCount := maxTokens }

/-- `RequestTokenBucket.calculateCurrentTokens` (`src/main.py:55-72`):
no-op when `lastRequestTimestamp is None`; otherwise
`currentCount = min(maxTokens, currentCount + (now - last) // refillRate)`.
Python `//` is floor division, hence `Int.fdiv`. -/
def calculateCurrentTokens (b : RequestTokenBucket) (now : Int) : RequestTokenBucket :=
  match b.lastRequestTimestamp with
  | none => b
  | some last =>
      let tokensSinceLastRequest := (now - last).fdiv b.refillRate
      { b with currentCount := min b.maxTokens (b.currentCount + tokensSinceLastRequest) }

/-- `RequestTokenBucket.printBucketSummary` (`src/main.py:74-89`): builds the
four report lines from the fields and changes nothing; the returned state is
the embedding of "the method body contains no assignment to `self`". -/
def printBucketSummary (b : RequestTokenBucket) : List String × RequestTokenBucket :=
  (["Max Token Capacity: " ++ toString b.maxTokens,
    "Refill Rate: " ++ toString b.refillRate,
    "Current Token Count: " ++ toString b.currentCount,
    "Last Request Time: " ++ (match b.lastRequestTimestamp with
      | none => "None"
      | some t => toString t)], b)

/-- The refill-then-consume body of `allowRequestToService`
(`src/main.py:204-217`) acting on a single bucket (the spec's `tryAdmit`):
refill, then if `currentCount > 0` record `now`, take one token and succeed,
else fail with the state left as the refill produced it. -/
def tryAdmit (b : RequestTokenBucket) (now : Int) : Bool × RequestTokenBucket :=
  let b1 := b.calculateCurrentTokens now
  if 0 < b1.currentCount then
    (true, { b1 with lastRequestTimestamp := some now, currentCount := b1.currentCount - 1 })
  else
    (false, b1)

end RequestTokenBucket

/-- Insert-or-replace on the association list embedding the Python dict:
an existing key keeps its position and gets the new value, a new key is
appended (Python dicts preserve insertion order). -/
def dictInsert (d : List (Int × RequestTokenBucket)) (k : Int) (v : RequestTokenBucket) :
    List (Int × RequestTokenBucket) :=
  match d with
  | [] => [(k, v)]
  | (k0, v0) :: rest =>
      if k0 = k then (k, v) :: rest else (k0, v0) :: dictInsert rest k v

/-- Key removal on the association list embedding the Python dict
(`del d[k]` once the key is known to be present). -/
def dictErase (d : List (Int × RequestTokenBucket)) (k : Int) :
    List (Int × RequestTokenBucket) :=
  match d with
  | [] => []
  | (k0, v0) :: rest =>
      if k0 = k then rest else (k0, v0) :: dictErase rest k

/-- State of `TokenBucketRateLimiter` (`src/main.py:146-154`): the
`ratelimiterDict` mapping account ids to buckets. -/
structure TokenBucketRateLimiter where
  ratelimiterDict : List (Int × RequestTokenBucket)
  deriving DecidableEq, Repr

namespace TokenBucketRateLimiter

/-- `TokenBucketRateLimiter.__init__` (`src/main.py:146-154`): empty dict. -/
def init : TokenBucketRateLimiter := ⟨[]⟩

/-- `TokenBucketRateLimiter.addAccount` (`src/main.py:156-171`):
`self.ratelimiterDict[accountID] = requestTokenBucket`. -/
def addAccount (rl : TokenBucketRateLimiter) (accountID : Int)
    (requestTokenBucket : RequestTokenBucket) : TokenBucketRateLimiter :=
  ⟨dictInsert rl.ratelimiterDict accountID requestTokenBucket⟩

/-- `TokenBucketRateLimiter.removeAccount` (`src/main.py:173-186`):
`del self.ratelimiterDict[accountID]`, raising `KeyError` when absent. -/
def removeAccount (rl : TokenBucketRateLimiter) (accountID : Int) :
    Except PyError TokenBucketRateLimiter :=
  match List.lookup accountID rl.ratelimiterDict with
  | none => .error (.keyError accountID)
  | some _ => .ok ⟨dictErase rl.ratelimiterDict accountID⟩

/-- `TokenBucketRateLimiter.allowRequestToService` (`src/main.py:188-217`):
dict lookup (`KeyError` when absent), then under the bucket's lock refill via
`calculateCurrentTokens`, and if `currentCount > 0` set
`lastRequestTimestamp = now`, decrement and return `True`, else return
`False`.  The in-place mutation of the looked-up bucket is embedded by
writing the updated bucket back at its key. -/
def allowRequestToService (rl : TokenBucketRateLimiter) (accountID now : Int) :
    Except PyError (Bool × TokenBucketRateLimiter) :=
  match List.lookup accountID rl.ratelimiterDict with
  | none => .error (.keyError accountID)
  | some tokenBucket =>
      let b1 := tokenBucket.calculateCurrentTokens now
      if 0 < b1.currentCount then
        let b2 : RequestTokenBucket :=
          { b1 with lastRequestTimestamp := some now, currentCount := b1.currentCount - 1 }
        .ok (true, ⟨dictInsert rl.ratelimiterDict accountID b2⟩)
      else
        .ok (false, ⟨dictInsert rl.ratelimiterDict accountID b1⟩)

end TokenBucketRateLimiter

/-- Run `allowRequestToService` for one account at each time of the list in
order, collecting the boolean results; any `KeyError` aborts the run. -/
def allowSeq (rl : TokenBucketRateLimiter) (accountID : Int) :
    List Int → Except PyError (List Bool × TokenBucketRateLimiter)
  | [] => .ok ([], rl)
  | t :: ts => do
      let (r, rl1) ← rl.allowRequestToService accountID t
      let (rs, rl2) ← allowSeq rl1 accountID ts
      return (r :: rs, rl2)

/-- Run `tryAdmit` on one bucket at each time of the list in order,
collecting the boolean results. -/
def runAdmits (b : RequestTokenBucket) : List Int → List Bool × RequestTokenBucket
  | [] => ([], b)
  | t :: ts =>
      let p := b.tryAdmit t
      let q := runAdmits p.2 ts
      (p.1 :: q.1, q.2)

/-- `m` back-to-back `tryAdmit` calls at one instant `now`. -/
def admitN (b : RequestTokenBucket) (now : Int) : Nat → List Bool × RequestTokenBucket
  | 0 => ([], b)
  | m + 1 =>
      let p := b.tryAdmit now
      let q := admitN p.2 now m
      (p.1 :: q.1, q.2)

/-!
Spec-side definitions (for the refinement claim): the refill step and the
admission step written from the specification's own wording, to be compared
with the embedding of the source.
-/

/-- The refill step as the specification words it: no-op when
`lastAdmissionTime` is absent; otherwise `elapsed = now - lastAdmissionTime`,
`tokensToAdd = elapsed div refillIntervalSeconds` (integer division, floor),
`currentTokens = min(capacity, currentTokens + tokensToAdd)`. -/
def refillSpec (b : RequestTokenBucket) (now : Int) : RequestTokenBucket :=
  match b.lastRequestTimestamp with
  | none => b
  | some lastAdmissionTime =>
      let elapsed := now - lastAdmissionTime
      let tokensToAdd := elapsed.fdiv b.refillRate
      { b with currentCount := min b.maxTokens (b.currentCount + tokensToAdd) }

/-- The admission step as the specification words it: refill, then if
`currentTokens > 0` set `lastAdmissionTime = now`, decrement `currentTokens`
by 1 and return `true`, else return `false`. -/
def tryAdmitSpec (b : RequestTokenBucket) (now : Int) : Bool × RequestTokenBucket :=
  let br := refillSpec b now
  if 0 < br.currentCount then
    (true, { br with lastRequestTimestamp := some now, currentCount := br.currentCount - 1 })
  else
    (false, br)

/-! Helper lemmas about the bucket operations. -/

theorem calc_maxTokens (b : RequestTokenBucket) (now : Int) :
    (b.calculateCurrentTokens now).maxTokens = b.maxTokens := by
  unfold RequestTokenBucket.calculateCurrentTokens
  cases b.lastRequestTimestamp <;> rfl

theorem calc_refillRate (b : RequestTokenBucket) (now : Int) :
    (b.calculateCurrentTokens now).refillRate = b.refillRate := by
  unfold RequestTokenBucket.calculateCurrentTokens
  cases b.lastRequestTimestamp <;> rfl

theorem calc_lastRequestTimestamp (b : RequestTokenBucket) (now : Int) :
    (b.calculateCurrentTokens now).lastRequestTimestamp = b.lastRequestTimestamp := by
  unfold RequestTokenBucket.calculateCurrentTokens
  cases hb : b.lastRequestTimestamp <;> simp [hb]

theorem tryAdmit_maxTokens (b : RequestTokenBucket) (now : Int) :
    ((b.tryAdmit now).2).maxTokens = b.maxTokens := by
  unfold RequestTokenBucket.tryAdmit
  by_cases h : 0 < (b.calculateCurrentTokens now).currentCount <;>
    simp [h, calc_maxTokens]

theorem tryAdmit_refillRate (b : RequestTokenBucket) (now : Int) :
    ((b.tryAdmit now).2).refillRate = b.refillRate := by
  unfold RequestTokenBucket.tryAdmit
  by_cases h : 0 < (b.calculateCurrentTokens now).currentCount <;>
    simp [h, calc_refillRate]

theorem tryAdmit_lastRequestTimestamp (b : RequestTokenBucket) (now : Int) :
    ((b.tryAdmit now).2).lastRequestTimestamp = some now ∨
      ((b.tryAdmit now).2).lastRequestTimestamp = b.lastRequestTimestamp := by
  unfold RequestTokenBucket.tryAdmit
  by_cases h : 0 < (b.calculateCurrentTokens now).currentCount
  · left
    simp [h]
  · right
    simp [h, calc_lastRequestTimestamp]

/-- A freshly constructed bucket with non-positive capacity rejects every
request and is left exactly as constructed: the refill step is a no-op
(`lastRequestTimestamp` is `none`) and the token test fails. -/
theorem admit_init_nonpos (cap rate t : Int) (hcap : cap ≤ 0) :
    (RequestTokenBucket.init cap rate).tryAdmit t = (false, RequestTokenBucket.init cap rate) := by
  have hlt : ¬ (0 : Int) < cap := by omega
  simp [RequestTokenBucket.tryAdmit, RequestTokenBucket.calculateCurrentTokens,
    RequestTokenBucket.init, hlt]

/-! Invariant machinery: sequences of bucket operations. -/

/-- An externally invokable bucket operation: an admission attempt at a call
time, or a summary. -/
inductive Op where
  | admitAt (now : Int)
  | summary
  deriving DecidableEq, Repr

/-- Run a sequence of bucket operations, threading the bucket state. -/
def runOps (b : RequestTokenBucket) : List Op → RequestTokenBucket
  | [] => b
  | Op.admitAt now :: rest => runOps ((b.tryAdmit now).2) rest
  | Op.summary :: rest => runOps ((b.printBucketSummary).2) rest

/-- The spec's bucket invariant: `0 ≤ currentTokens ≤ capacity`. -/
def Inv (b : RequestTokenBucket) : Prop :=
  0 ≤ b.currentCount ∧ b.currentCount ≤ b.maxTokens

/-- Admission times in the operation list are at least the lower bound (the
last admission timestamp, when present) and non-decreasing along the list. -/
def okTimes : Option Int → List Op → Prop
  | _, [] => True
  | lb, Op.summary :: rest => okTimes lb rest
  | lb, Op.admitAt now :: rest => (∀ t ∈ lb, t ≤ now) ∧ okTimes (some now) rest

theorem okTimes_weaken (ops : List Op) (lb : Option Int) (h : okTimes lb ops) :
    okTimes none ops := by
  induction ops generalizing lb with
  | nil => trivial
  | cons op rest ih =>
      cases op with
      | summary =>
          simp only [okTimes] at h ⊢
          exact ih lb h
      | admitAt now =>
          simp only [okTimes] at h ⊢
          exact ⟨by simp, h.2⟩

theorem okTimes_mono (ops : List Op) (s t : Int) (hts : t ≤ s) (h : okTimes (some s) ops) :
    okTimes (some t) ops := by
  induction ops with
  | nil => trivial
  | cons op rest ih =>
      cases op with
      | summary =>
          simp only [okTimes] at h ⊢
          exact ih h
      | admitAt now =>
          simp only [okTimes] at h ⊢
          obtain ⟨h1, h2⟩ := h
          refine ⟨?_, h2⟩
          intro u hu
          have hs : s ≤ now := h1 s rfl
          simp only [Option.mem_def, Option.some.injEq] at hu
          omega

/-- `tryAdmit` preserves the bucket invariant when capacity and refill
interval are positive and the call time does not precede the recorded last
admission. -/
theorem tryAdmit_inv (b : RequestTokenBucket) (now : Int) (hc : 0 < b.maxTokens)
    (hr : 0 < b.refillRate) (ht : ∀ t ∈ b.lastRequestTimestamp, t ≤ now) (h : Inv b) :
    Inv ((b.tryAdmit now).2) := by
  obtain ⟨h1, h2⟩ := h
  have hb1 : Inv (b.calculateCurrentTokens now) := by
    unfold RequestTokenBucket.calculateCurrentTokens
    cases hl : b.lastRequestTimestamp with
    | none => exact ⟨h1, h2⟩
    | some u =>
        have helapsed : (0 : Int) ≤ now - u := by
          have := ht u hl
          omega
        have hadd : (0 : Int) ≤ (now - u).fdiv b.refillRate := by
          rw [Int.fdiv_eq_ediv _ hr.le]
          exact Int.ediv_nonneg helapsed hr.le
        constructor
        · exact le_min hc.le (by omega)
        · exact min_le_left _ _
  obtain ⟨hb1a, hb1b⟩ := hb1
  have hmax : (b.calculateCurrentTokens now).maxTokens = b.maxTokens := calc_maxTokens b now
  unfold RequestTokenBucket.tryAdmit
  by_cases hpos : 0 < (b.calculateCurrentTokens now).currentCount
  · simp only [hpos, if_true]
    constructor <;> dsimp only <;> omega
  · simp only [hpos, if_false]
    exact ⟨hb1a, hb1b⟩

/-- The bucket invariant is preserved along any operation sequence whose
admission times respect the current timestamp lower bound. -/
theorem runOps_inv (ops : List Op) (b : RequestTokenBucket) (hc : 0 < b.maxTokens)
    (hr : 0 < b.refillRate) (hok : okTimes b.lastRequestTimestamp ops) (hinv : Inv b) :
    Inv (runOps b ops) := by
  induction ops generalizing b with
  | nil => exact hinv
  | cons op rest ih =>
      cases op with
      | summary =>
          simp only [okTimes] at hok
          exact ih b hc hr hok hinv
      | admitAt now =>
          simp only [okTimes] at hok
          obtain ⟨h1, h2⟩ := hok
          have hinv' := tryAdmit_inv b now hc hr h1 hinv
          have hok' : okTimes ((b.tryAdmit now).2).lastRequestTimestamp rest := by
            rcases tryAdmit_lastRequestTimestamp b now with he | he
            · rw [he]
              exact h2
            · rw [he]
              cases hb : b.lastRequestTimestamp with
              | none => exact okTimes_weaken rest (some now) h2
              | some u => exact okTimes_mono rest now u (h1 u hb) h2
          have hc' : 0 < ((b.tryAdmit now).2).maxTokens := by
            rw [tryAdmit_maxTokens]
            exact hc
          have hr' : 0 < ((b.tryAdmit now).2).refillRate := by
            rw [tryAdmit_refillRate]
            exact hr
          exact ih _ hc' hr' hok' hinv'

/-! Claim theorems. -/

/-- C1: for every registered account, `allowRequestToService` behaves as
refill-then-consume in the specification's wording: it returns the boolean of
`tryAdmitSpec` and stores the bucket `tryAdmitSpec` produces back under the
account's key, raising no error (the rejection path is `.ok false`); and the
bucket-level operation `tryAdmit` coincides with the spec-worded
`tryAdmitSpec` on every bucket state and call time. -/
theorem c1_admit_refines_spec (rl : TokenBucketRateLimiter) (accountID now : Int)
    (b : RequestTokenBucket) (h : List.lookup accountID rl.ratelimiterDict = some b) :
    rl.allowRequestToService accountID now =
      .ok ((tryAdmitSpec b now).1, rl.addAccount accountID ((tryAdmitSpec b now).2)) ∧
    b.tryAdmit now = tryAdmitSpec b now := by
  have hspec : b.tryAdmit now = tryAdmitSpec b now := by
    unfold RequestTokenBucket.tryAdmit tryAdmitSpec refillSpec
      RequestTokenBucket.calculateCurrentTokens
    cases b.lastRequestTimestamp <;> rfl
  refine ⟨?_, hspec⟩
  unfold TokenBucketRateLimiter.allowRequestToService TokenBucketRateLimiter.addAccount
  rw [h, ← hspec]
  unfold RequestTokenBucket.tryAdmit
  by_cases hc : 0 < (b.calculateCurrentTokens now).currentCount <;> simp [hc]

/-- C1 witness: a registry holding account 1 with a capacity-5,
interval-10 bucket, admitting at time 0. -/
theorem c1_witness :
    List.lookup 1 (TokenBucketRateLimiter.init.addAccount 1
        (RequestTokenBucket.init 5 10)).ratelimiterDict = some (RequestTokenBucket.init 5 10) ∧
    ((TokenBucketRateLimiter.init.addAccount 1 (RequestTokenBucket.init 5 10)).allowRequestToService
        1 0 =
      .ok ((tryAdmitSpec (RequestTokenBucket.init 5 10) 0).1,
        (TokenBucketRateLimiter.init.addAccount 1 (RequestTokenBucket.init 5 10)).addAccount 1
          ((tryAdmitSpec (RequestTokenBucket.init 5 10) 0).2)) ∧
      (RequestTokenBucket.init 5 10).tryAdmit 0 = tryAdmitSpec (RequestTokenBucket.init 5 10) 0) :=
  ⟨rfl, c1_admit_refines_spec (TokenBucketRateLimiter.init.addAccount 1
    (RequestTokenBucket.init 5 10)) 1 0 (RequestTokenBucket.init 5 10) rfl⟩

/-- C2: scenario from the spec — registry with one account whose bucket has
capacity 5 and refill interval 10, constructed at time 0 (full, no history):
five admits at time 0 all return `true` and leave 0 tokens with
`lastRequestTimestamp = 0`; a sixth admit at time 9 returns `false` and
changes nothing; a seventh admit at time 11 returns `true` (one token accrued
and immediately consumed), leaving 0 tokens and `lastRequestTimestamp = 11`. -/
theorem c2_scenario :
    (allowSeq (TokenBucketRateLimiter.init.addAccount 1 (RequestTokenBucket.init 5 10)) 1
        [0, 0, 0, 0, 0] =
      .ok ([true, true, true, true, true], ⟨[(1, ⟨5, 10, some 0, 0⟩)]⟩)) ∧
    (allowSeq (TokenBucketRateLimiter.init.addAccount 1 (RequestTokenBucket.init 5 10)) 1
        [0, 0, 0, 0, 0, 9] =
      .ok ([true, true, true, true, true, false], ⟨[(1, ⟨5, 10, some 0, 0⟩)]⟩)) ∧
    (allowSeq (TokenBucketRateLimiter.init.addAccount 1 (RequestTokenBucket.init 5 10)) 1
        [0, 0, 0, 0, 0, 9, 11] =
      .ok ([true, true, true, true, true, false, true], ⟨[(1, ⟨5, 10, some 11, 0⟩)]⟩)) :=
  ⟨rfl, rfl, rfl⟩

/-- C6 counterexample: constructing with capacity 0 (non-positive) is not
rejected — the constructor raises nothing and yields an actual bucket state
whose capacity field is non-positive, contradicting the claim that no such
bucket state is ever created. -/
theorem c6_counterexample :
    RequestTokenBucket.init 0 5 =
      { maxTokens := 0, refillRate := 5, lastRequestTimestamp := none, currentCount := 0 } ∧
    (RequestTokenBucket.init 0 5).maxTokens ≤ 0 := by
  decide

/-- C6 amended: construction performs no validation at all — every capacity
and refill interval value, non-positive ones included, is accepted and
stored verbatim, with the bucket starting full (`currentTokens = capacity`)
and with no admission history; no InvalidConfiguration error exists in the
code. -/
theorem c6_amended_no_validation (cap rate : Int) :
    RequestTokenBucket.init cap rate =
      { maxTokens := cap, refillRate := rate, lastRequestTimestamp := none, currentCount := cap } :=
  rfl

/-- C7: both `allowRequestToService` and `removeAccount` on an account id
absent from the dict raise `KeyError` (the AccountNotFound condition) to the
caller.  The error is raised by the lookup itself, before any mutation, so in
the state-passing embedding no updated registry is produced: the caller's
registry is unchanged and no bucket is created for the missing account. -/
theorem c7_missing_account (rl : TokenBucketRateLimiter) (accountID now : Int)
    (h : List.lookup accountID rl.ratelimiterDict = none) :
    rl.allowRequestToService accountID now = .error (.keyError accountID) ∧
    rl.removeAccount accountID = .error (.keyError accountID) := by
  unfold TokenBucketRateLimiter.allowRequestToService TokenBucketRateLimiter.removeAccount
  rw [h]
  exact ⟨rfl, rfl⟩

/-- C7 witness: the empty registry with account id 7. -/
theorem c7_witness :
    List.lookup 7 TokenBucketRateLimiter.init.ratelimiterDict = none ∧
    (TokenBucketRateLimiter.init.allowRequestToService 7 0 = .error (.keyError 7) ∧
      TokenBucketRateLimiter.init.removeAccount 7 = .error (.keyError 7)) :=
  ⟨rfl, c7_missing_account TokenBucketRateLimiter.init 7 0 rfl⟩

/-- C8: a `tryAdmit` call that returns `false` leaves `lastRequestTimestamp`
unchanged — the timestamp is assigned only inside the success branch, and the
refill step never touches it — so the next refill still measures elapsed time
from the last successful admission. -/
theorem c8_reject_keeps_timestamp (b : RequestTokenBucket) (now : Int)
    (h : (b.tryAdmit now).1 = false) :
    ((b.tryAdmit now).2).lastRequestTimestamp = b.lastRequestTimestamp := by
  unfold RequestTokenBucket.tryAdmit at h ⊢
  by_cases hc : 0 < (b.calculateCurrentTokens now).currentCount
  · simp [hc] at h
  · simp [hc, calc_lastRequestTimestamp]

/-- C8 witness: a drained bucket rejected at time 105 keeps its
`lastRequestTimestamp` of 100. -/
theorem c8_witness :
    (RequestTokenBucket.tryAdmit ⟨3, 10, some 100, 0⟩ 105).1 = false ∧
    ((RequestTokenBucket.tryAdmit ⟨3, 10, some 100, 0⟩ 105).2).lastRequestTimestamp = some 100 :=
  ⟨by decide, c8_reject_keeps_timestamp ⟨3, 10, some 100, 0⟩ 105 (by decide)⟩

/-- C9: `printBucketSummary` only reads the four fields; iterating it any
number of times without an intervening admit returns the bucket state — all
of `maxTokens`, `refillRate`, `currentCount` and `lastRequestTimestamp` —
unchanged, and in particular performs no refill. -/
theorem c9_summary_idempotent (b : RequestTokenBucket) (n : Nat) :
    (fun x => (RequestTokenBucket.printBucketSummary x).2)^[n] b = b :=
  Function.iterate_fixed rfl n

/-- C10: construction with non-positive capacity is accepted, neither
rejected nor clamped; the bucket starts with `currentTokens = capacity` and
any sequence of `tryAdmit` calls at arbitrary times returns `false` at every
call, raises nothing, and leaves the bucket exactly as constructed — in
particular `lastRequestTimestamp` is never set. -/
theorem c10_nonpositive_capacity (cap rate : Int) (ts : List Int) (hcap : cap ≤ 0) :
    (RequestTokenBucket.init cap rate).currentCount = cap ∧
    runAdmits (RequestTokenBucket.init cap rate) ts =
      (List.replicate ts.length false, RequestTokenBucket.init cap rate) := by
  refine ⟨rfl, ?_⟩
  induction ts with
  | nil => rfl
  | cons t ts ih =>
      simp [runAdmits, admit_init_nonpos cap rate t hcap, ih, List.replicate_succ]

/-- C10 witness: capacity 0, three admit attempts. -/
theorem c10_witness :
    (0 : Int) ≤ 0 ∧
    ((RequestTokenBucket.init 0 5).currentCount = 0 ∧
      runAdmits (RequestTokenBucket.init 0 5) [1, 2, 3] =
        (List.replicate 3 false, RequestTokenBucket.init 0 5)) :=
  ⟨by decide, c10_nonpositive_capacity 0 5 [1, 2, 3] (by decide)⟩

/-- C3: for every bucket constructed with positive capacity and positive
refill interval, the invariant `0 ≤ currentTokens ≤ capacity` holds right
after construction and still holds after any sequence of admit and summary
operations whose admission call times are non-decreasing (and hence never
precede the recorded last admission time, which starts absent). -/
theorem c3_invariant (cap rate : Int) (ops : List Op) (hc : 0 < cap) (hr : 0 < rate)
    (hok : okTimes none ops) :
    Inv (RequestTokenBucket.init cap rate) ∧
      Inv (runOps (RequestTokenBucket.init cap rate) ops) :=
  ⟨⟨hc.le, le_refl cap⟩,
    runOps_inv ops (RequestTokenBucket.init cap rate) hc hr hok ⟨hc.le, le_refl cap⟩⟩

/-- C3 witness: capacity 5, interval 10, an admit at 0, a summary, and an
admit at 11. -/
theorem c3_witness :
    (0 : Int) < 5 ∧ (0 : Int) < 10 ∧
    okTimes none [Op.admitAt 0, Op.summary, Op.admitAt 11] ∧
    (Inv (RequestTokenBucket.init 5 10) ∧
      Inv (runOps (RequestTokenBucket.init 5 10) [Op.admitAt 0, Op.summary, Op.admitAt 11])) := by
  have hok : okTimes none [Op.admitAt 0, Op.summary, Op.admitAt 11] := by
    refine ⟨by simp, ?_, trivial⟩
    intro u hu
    simp only [Option.mem_def, Option.some.injEq] at hu
    omega
  exact ⟨by norm_num, by norm_num, hok,
    c3_invariant 5 10 [Op.admitAt 0, Op.summary, Op.admitAt 11] (by norm_num) (by norm_num) hok⟩

/-- C5: a bucket with positive capacity `C` and positive refill interval `R`,
drained to zero tokens by a successful admission at `t0`: every admit call at
a time in `[t0, t0 + R)` returns `false` and leaves the state untouched (so
repeated attempts in the window all fail); any admit call at a time
`t ≥ t0` that returns `true` satisfies `t ≥ t0 + R`; and the call at exactly
`t0 + R` does return `true` (one token accrued and consumed, back to zero). -/
theorem c5_refill_window (C R t0 t : Int) (hC : 0 < C) (hR : 0 < R) :
    (t0 ≤ t → t < t0 + R →
      RequestTokenBucket.tryAdmit ⟨C, R, some t0, 0⟩ t = (false, ⟨C, R, some t0, 0⟩)) ∧
    ((RequestTokenBucket.tryAdmit ⟨C, R, some t0, 0⟩ t).1 = true → t0 ≤ t → t0 + R ≤ t) ∧
    RequestTokenBucket.tryAdmit ⟨C, R, some t0, 0⟩ (t0 + R) =
      (true, ⟨C, R, some (t0 + R), 0⟩) := by
  have key : ∀ s : Int, t0 ≤ s → s < t0 + R →
      RequestTokenBucket.tryAdmit ⟨C, R, some t0, 0⟩ s = (false, ⟨C, R, some t0, 0⟩) := by
    intro s hs1 hs2
    have hfd : (s - t0).fdiv R = 0 := by
      rw [Int.fdiv_eq_ediv _ hR.le]
      exact Int.ediv_eq_zero_of_lt (by omega) (by omega)
    simp [RequestTokenBucket.tryAdmit, RequestTokenBucket.calculateCurrentTokens, hfd,
      min_eq_right hC.le]
  refine ⟨key t, ?_, ?_⟩
  · intro htrue hle
    by_contra hlt
    push_neg at hlt
    rw [key t hle hlt] at htrue
    simp at htrue
  · have hfd : R.fdiv R = 1 := by
      rw [Int.fdiv_eq_ediv _ hR.le, Int.ediv_self hR.ne']
    have hmin : min C 1 = 1 := min_eq_right (by omega)
    simp [RequestTokenBucket.tryAdmit, RequestTokenBucket.calculateCurrentTokens, hfd, hmin, hC]

/-- C5 witness: capacity 3, interval 10, drained at 100, probe at 105. -/
theorem c5_witness :
    (0 : Int) < 3 ∧ (0 : Int) < 10 ∧
    ((100 ≤ (105 : Int) → (105 : Int) < 100 + 10 →
        RequestTokenBucket.tryAdmit ⟨3, 10, some 100, 0⟩ 105 = (false, ⟨3, 10, some 100, 0⟩)) ∧
      ((RequestTokenBucket.tryAdmit ⟨3, 10, some 100, 0⟩ 105).1 = true →
        100 ≤ (105 : Int) → 100 + 10 ≤ (105 : Int)) ∧
      RequestTokenBucket.tryAdmit ⟨3, 10, some 100, 0⟩ (100 + 10) =
        (true, ⟨3, 10, some (100 + 10), 0⟩)) :=
  ⟨by norm_num, by norm_num, c5_refill_window 3 10 100 105 (by norm_num) (by norm_num)⟩

/-- Refilling at the very instant recorded in `lastRequestTimestamp` accrues
zero tokens and returns the bucket unchanged (given the token count does not
exceed capacity). -/
theorem calc_at_now (b : RequestTokenBucket) (now : Int)
    (hl : b.lastRequestTimestamp = some now) (hle : b.currentCount ≤ b.maxTokens) :
    b.calculateCurrentTokens now = b := by
  cases b with
  | mk cap rate last cnt =>
      dsimp only at hl hle
      subst hl
      simp [RequestTokenBucket.calculateCurrentTokens, min_eq_right hle]

/-- A drained bucket probed repeatedly at its own admission instant rejects
every call and never changes. -/
theorem admitN_drained (now : Int) (m : Nat) (b : RequestTokenBucket)
    (hl : b.lastRequestTimestamp = some now) (h0 : b.currentCount = 0)
    (hcap : 0 ≤ b.maxTokens) :
    admitN b now m = (List.replicate m false, b) := by
  have hstep : b.tryAdmit now = (false, b) := by
    have hcalc : b.calculateCurrentTokens now = b := calc_at_now b now hl (by omega)
    simp [RequestTokenBucket.tryAdmit, hcalc, h0]
  induction m with
  | zero => rfl
  | succ m ih => simp [admitN, hstep, ih, List.replicate_succ]

/-- Back-to-back admissions at one instant from a bucket whose timestamp is
that instant: with `k` tokens available, the first `min m k` calls succeed
and the rest fail. -/
theorem admitN_at_fixed (now : Int) (m : Nat) (b : RequestTokenBucket)
    (hl : b.lastRequestTimestamp = some now) (h0 : 0 ≤ b.currentCount)
    (hle : b.currentCount ≤ b.maxTokens) :
    (admitN b now m).1 =
      List.replicate (min m b.currentCount.toNat) true ++
        List.replicate (m - min m b.currentCount.toNat) false := by
  induction m generalizing b with
  | zero => simp [admitN]
  | succ m ih =>
      have hcalc : b.calculateCurrentTokens now = b := calc_at_now b now hl hle
      by_cases hpos : 0 < b.currentCount
      · have hstep : b.tryAdmit now =
            (true, { b with lastRequestTimestamp := some now,
                            currentCount := b.currentCount - 1 }) := by
          simp [RequestTokenBucket.tryAdmit, hcalc, hpos]
        have ih' := ih { b with lastRequestTimestamp := some now,
                                currentCount := b.currentCount - 1 }
          rfl (by dsimp only; omega) (by dsimp only; omega)
        dsimp only at ih'
        simp only [admitN, hstep]
        rw [ih']
        have e1 : min (m + 1) b.currentCount.toNat = min m (b.currentCount - 1).toNat + 1 := by
          omega
        have e2 : (m + 1) - min (m + 1) b.currentCount.toNat =
            m - min m (b.currentCount - 1).toNat := by
          omega
        rw [e2, e1, List.replicate_succ, List.cons_append]
      · have hz : b.currentCount = 0 := by omega
        rw [admitN_drained now (m + 1) b hl hz (by omega)]
        simp [hz]

/-- C4 counterexample: capacity 2 with two calls at instant 0 instantiates
the claim at n = 1 ≤ C = 2, but the second call returns `true` — a token
remains, so the (n+1)th call does not return `false`. -/
theorem c4_counterexample :
    (1 : Int) ≤ 2 ∧
    (admitN (RequestTokenBucket.init 2 5) 0 2).1 = [true, true] ∧
    (admitN (RequestTokenBucket.init 2 5) 0 2).1 ≠ List.replicate 1 true ++ [false] := by
  decide

/-- C4 amended: from a freshly constructed bucket with capacity `C`, for
`n ≤ C`, among `n + 1` admit calls at one instant the first `n` all return
`true`, and the `(n+1)`th returns `false` exactly when `n = C` (when
`n < C` a token remains and it returns `true`). -/
theorem c4_amended (C rate t : Int) (n : Nat) (h : (n : Int) ≤ C) :
    (admitN (RequestTokenBucket.init C rate) t (n + 1)).1 =
      List.replicate n true ++ [if (n : Int) = C then false else true] := by
  by_cases hC : 0 < C
  · have hstep : (RequestTokenBucket.init C rate).tryAdmit t =
        (true, ⟨C, rate, some t, C - 1⟩) := by
      simp [RequestTokenBucket.tryAdmit, RequestTokenBucket.calculateCurrentTokens,
        RequestTokenBucket.init, hC]
    have hrest := admitN_at_fixed t n ⟨C, rate, some t, C - 1⟩ rfl
      (by dsimp only; omega) (by dsimp only; omega)
    dsimp only at hrest
    simp only [admitN, hstep]
    rw [hrest]
    by_cases heq : (n : Int) = C
    · obtain ⟨j, rfl⟩ : ∃ j, n = j + 1 := ⟨n - 1, by omega⟩
      have e1 : min (j + 1) (C - 1).toNat = j := by omega
      have e2 : (j + 1) - j = 1 := by omega
      rw [e1, e2, if_pos heq]
      simp [List.replicate_succ]
    · have e1 : min n (C - 1).toNat = n := by omega
      have e2 : n - n = 0 := by omega
      rw [e1, e2, if_neg heq]
      simp only [List.replicate_zero, List.append_nil]
      rw [← List.replicate_succ, List.replicate_succ']
  · have hC0 : C = 0 := by omega
    have hn : n = 0 := by omega
    subst hC0
    subst hn
    simp [admitN, RequestTokenBucket.tryAdmit, RequestTokenBucket.calculateCurrentTokens,
      RequestTokenBucket.init]

/-- C4 witness: capacity 2, three calls at instant 0 with n = 2 = C: two
successes then a failure. -/
theorem c4_witness :
    ((2 : Nat) : Int) ≤ 2 ∧
    (admitN (RequestTokenBucket.init 2 5) 0 (2 + 1)).1 =
      List.replicate 2 true ++ [if ((2 : Nat) : Int) = 2 then false else true] :=
  ⟨by decide, c4_amended 2 5 0 2 (by decide)⟩

end TokenBucket
